import Mathlib

/-!
# SearchFunder scraper — checkpointed incremental collection engine

Shallow embedding of the core of `src/index.js`: the fingerprint computation,
the extraction batch processor, the checkpoint store's truncation, the
scroll/scrape/save loop body and its convergence counter, and the
graceful-shutdown save.  The browser, filesystem and page are external
collaborators: each loop iteration's observations of the page (the visible
cards, the per-index extraction outcome, whether the CSV append succeeds,
whether the page height stayed the same) are inputs to a pure step function,
and the CSV sink and the checkpoint file are explicit fields of the loop
state.  `appendedIds` records the fingerprint attached to each row that was
actually appended to the CSV (the code computes this id, uses it for
deduplication and strips it from the row just before the append), so that
identity properties of the sink can be stated.
-/

namespace Scraper

/-- One harvested record, the object built by `extractProfileBatch`
(src/index.js:377-384); `x || null` in JS turns a missing or empty value into
`null`, modelled as `Option`. -/
structure Record where
  name : Option String
  linkedIn_url : Option String
  website_url : Option String
  occupation : Option String
  location : Option String
  uni_name : Option String
deriving DecidableEq, Repr

/-- JS `s.replace(/\s+/g, '')` (src/index.js:237): every whitespace character
is removed. -/
def removeWhitespace (s : String) : String :=
  String.mk (s.data.filter (fun c => !c.isWhitespace))

/-- The unique id (fingerprint) computed by the lightweight probe
(src/index.js:223-239): the template string
`${name}|${occupation}|${linkedIn}` with all whitespace removed; a missing
element contributes the empty string (the `: ''` branch of each ternary). -/
def computeUniqueId (name occupation linkedIn : Option String) : String :=
  removeWhitespace (name.getD "" ++ "|" ++ occupation.getD "" ++ "|" ++ linkedIn.getD "")

/-- The three fields the probe reads from one visible profile card
(`none` = the element is absent from the card's DOM). -/
structure RawCard where
  cardName : Option String
  cardOccupation : Option String
  cardLinkedIn : Option String
deriving DecidableEq, Repr

/-- One element of the probe's result: the card's position in the rendered
list and its computed unique id (src/index.js:238). -/
structure ProfileWithId where
  index : Nat
  uniqueId : String
deriving DecidableEq, Repr

/-- The probe `currentProfilesWithIds` (src/index.js:223-240): every visible
card, with its array position as `index` and its computed unique id. -/
def currentProfilesWithIds (cards : List RawCard) : List ProfileWithId :=
  cards.enum.map (fun p => ⟨p.1, computeUniqueId p.2.cardName p.2.cardOccupation p.2.cardLinkedIn⟩)

/-- What one `page.evaluate` extraction of a single profile can do
(src/index.js:328-385): succeed with a record, find no element at the index
(the evaluate returns `null`), or throw. -/
inductive ExtractOutcome where
  | ok (data : Record)
  | missing
  | threw
deriving Repr

/-- The placeholder pushed for a failed extraction (src/index.js:391-398 and
407-414): a synthetic error name, every other field `null`. -/
def placeholderRecord (index : Nat) : Record :=
  ⟨some ("Error_Profile_" ++ toString index), none, none, none, none, none⟩

/-- One pass of the `extractProfileBatch` loop body for one index: the
extracted data when the evaluate succeeds with non-null data, the placeholder
when the element is missing or the extraction throws. -/
def extractEntry (extract : Nat → ExtractOutcome) (index : Nat) : Record :=
  match extract index with
  | .ok data => data
  | .missing => placeholderRecord index
  | .threw => placeholderRecord index

/-- `extractProfileBatch` (src/index.js:320-419): one entry is pushed per
requested index, in order. -/
def extractProfileBatch (extract : Nat → ExtractOutcome) (profileIndices : List Nat) :
    List Record :=
  profileIndices.map (extractEntry extract)

/-- JS `Set.add`: insertion-ordered, a repeated element is not re-inserted.
The model keeps the set as the insertion-ordered list of its elements, which
is what `Array.from(set)` yields. -/
def addToSet (l : List String) (x : String) : List String :=
  if x ∈ l then l else l ++ [x]

/-- Adding a list of elements to a JS `Set` one by one (`forEach(... add ...)`
at src/index.js:274-276, or `new Set(array)` at src/index.js:24 starting
from the empty set). -/
def addAllToSet (l : List String) (xs : List String) : List String :=
  xs.foldl addToSet l

/-- The checkpoint document (src/index.js:443-449). -/
structure Checkpoint where
  lastProfileIndex : Int
  csvFilename : Option String
  processedProfileIds : List String
deriving DecidableEq, Repr

/-- The truncation applied by `updateCheckpoint` (src/index.js:446-448):
`ids.length > 1000 ? ids.slice(-1000) : ids`, i.e. keep only the last 1000
entries. -/
def truncateIds (ids : List String) : List String :=
  if ids.length > 1000 then ids.drop (ids.length - 1000) else ids

/-- `updateCheckpoint` (src/index.js:441-455): the document written to the
checkpoint file.  A write error is caught and logged, leaving all in-memory
state untouched; the model records the document of the latest attempted
save. -/
def updateCheckpoint (lastProfileIndex : Int) (csvFilename : Option String)
    (processedProfileIds : List String) : Checkpoint :=
  ⟨lastProfileIndex, csvFilename, truncateIds processedProfileIds⟩

/-- The mutable state of `scrollScrapeAndSave` together with the externally
visible artifacts it owns: the CSV sink's rows, the fingerprints of the rows
actually appended, and the last checkpoint document saved during the loop. -/
structure LoopState where
  lastProfileIndex : Int
  processedProfileIds : List String
  noChangeCount : Nat
  csvFilename : String
  sink : List Record
  appendedIds : List String
  savedCheckpoint : Option Checkpoint
deriving Repr

/-- What one iteration observes of the page: the visible cards at probe time,
the behaviour of each per-index extraction, whether `fs.appendFileSync`
succeeds inside `appendToCsv` (its failure is caught there and only logged,
src/index.js:176-178), and whether `document.body.scrollHeight` is unchanged
after the scroll (src/index.js:302-303). -/
structure ScrollObs where
  cards : List RawCard
  extract : Nat → ExtractOutcome
  appendOk : Bool
  heightUnchanged : Bool

/-- The delta-set filter (src/index.js:243-246):
`profile.index > lastProfileIndex && !processedProfileIds.has(profile.uniqueId)`. -/
def newProfilesOf (cards : List RawCard) (lastProfileIndex : Int)
    (processedProfileIds : List String) : List ProfileWithId :=
  (currentProfilesWithIds cards).filter (fun profile =>
    decide ((profile.index : Int) > lastProfileIndex) &&
      !(processedProfileIds.contains profile.uniqueId))

/-- The extracted batch with each entry tagged with the probe's unique id at
the same position (src/index.js:252-259; `extractProfileBatch` always returns
exactly one entry per index, so the two lists are aligned). -/
def taggedBatch (extract : Nat → ExtractOutcome) (newProfiles : List ProfileWithId) :
    List (Record × String) :=
  (extractProfileBatch extract (newProfiles.map (·.index))).zip (newProfiles.map (·.uniqueId))

/-- The second dedupe pass (src/index.js:262-264):
`profile && profile.uniqueId && !processedProfileIds.has(profile.uniqueId)`
(`profile` itself is always an object, `profile.uniqueId` truthy means a
non-empty string). -/
def uniqueBatchOf (processedProfileIds : List String) (tagged : List (Record × String)) :
    List (Record × String) :=
  tagged.filter (fun t => (t.2 != "") && !(processedProfileIds.contains t.2))

/-- The convergence counter update (src/index.js:303-308): increment when the
height is unchanged and the iteration found zero new profiles, otherwise
reset to 0. -/
def stallStep (noChangeCount : Nat) (heightUnchanged : Bool) (newCount : Nat) : Nat :=
  if heightUnchanged && (newCount == 0) then noChangeCount + 1 else 0

/-- `maxNoChangeCount` (src/index.js:192). -/
def maxNoChangeCount : Nat := 5

/-- The extract-and-commit part of the loop body (src/index.js:251-287):
when the delta is non-empty, extract it, dedupe a second time, and if any
record survives, append the batch to the CSV (sink and appended ids advance
only when the append succeeds; the fingerprints are added and the checkpoint
is saved either way, exactly as the source does), update `lastProfileIndex`
to the max over the delta's indices, and save the checkpoint from the updated
values. -/
def stepCollect (obs : ScrollObs) (st : LoopState) (newProfiles : List ProfileWithId) :
    LoopState :=
  if 0 < newProfiles.length then
    let uniqueBatchData := uniqueBatchOf st.processedProfileIds (taggedBatch obs.extract newProfiles)
    if 0 < uniqueBatchData.length then
      let processedAfter := addAllToSet st.processedProfileIds (uniqueBatchData.map (·.2))
      let lastAfter := (newProfiles.map (fun p => (p.index : Int))).foldl max st.lastProfileIndex
      { st with
        sink := if obs.appendOk then st.sink ++ uniqueBatchData.map (·.1) else st.sink
        appendedIds :=
          if obs.appendOk then st.appendedIds ++ uniqueBatchData.map (·.2) else st.appendedIds
        processedProfileIds := processedAfter
        lastProfileIndex := lastAfter
        savedCheckpoint := some (updateCheckpoint lastAfter (some st.csvFilename) processedAfter) }
    else st
  else st

/-- One full iteration of the `while (noChangeCount < maxNoChangeCount)` body
(src/index.js:221-312): probe, delta filter, extract/commit, then the
convergence counter update fed with the height fact and this iteration's
`newProfiles.length`. -/
def step (obs : ScrollObs) (st : LoopState) : LoopState :=
  let newProfiles := newProfilesOf obs.cards st.lastProfileIndex st.processedProfileIds
  let st1 := stepCollect obs st newProfiles
  { st1 with noChangeCount := stallStep st.noChangeCount obs.heightUnchanged newProfiles.length }

/-- The collection loop (src/index.js:221): iterate while
`noChangeCount < maxNoChangeCount`, consuming one page observation per
iteration. -/
def runLoop : List ScrollObs → LoopState → LoopState
  | [], st => st
  | obs :: rest, st =>
      if st.noChangeCount < maxNoChangeCount then runLoop rest (step obs st) else st

/-- `checkpoint.lastProfileIndex || -1` (src/index.js:22): JS `||` treats `0`
as falsy, so a stored index of 0 resumes as -1. -/
def initLastIndex (cp : Checkpoint) : Int :=
  if cp.lastProfileIndex = 0 then -1 else cp.lastProfileIndex

/-- The loop state a run starts from, given the loaded checkpoint and the
resolved CSV filename (src/index.js:21-24 and 114-125): the in-memory
processed set is `new Set(checkpoint.processedProfileIds || [])`. -/
def initState (cp : Checkpoint) (csvFilename : String) : LoopState :=
  { lastProfileIndex := initLastIndex cp
    processedProfileIds := addAllToSet [] cp.processedProfileIds
    noChangeCount := 0
    csvFilename := csvFilename
    sink := []
    appendedIds := []
    savedCheckpoint := none }

/-- The convergence detector run on its own over a trace of per-iteration
facts `(heightUnchanged, number of new profiles)`, starting from the counter
initialised to 0 (src/index.js:191). -/
def runDetector (trace : List (Bool × Nat)) : Nat :=
  trace.foldl (fun c p => stallStep c p.1 p.2) 0

/-- A trace entry on which the counter increments. -/
def obsStall (p : Bool × Nat) : Bool := p.1 && (p.2 == 0)

/-- The document the SIGINT handler saves (src/index.js:460-477):
`setupGracefulShutdown` is called once, before the loop (src/index.js:38),
and its handler closes over the scalar parameters `lastProfileIndex` and
`csvFilename` by value — they keep their registration-time values — while
`processedProfileIds` is the very `Set` object the loop mutates, so the
handler reads its signal-time contents. -/
def setupGracefulShutdownSave (capturedLastProfileIndex : Int)
    (capturedCsvFilename : Option String) (processedProfileIds : List String) : Checkpoint :=
  updateCheckpoint capturedLastProfileIndex capturedCsvFilename processedProfileIds

/-- How many times the guarded handler body runs over a number of signals
(src/index.js:461-465): `if (shuttingDown) return; shuttingDown = true;`. -/
def handlerBodyRuns : Nat → Bool → Nat
  | 0, _ => 0
  | n + 1, shuttingDown =>
      if shuttingDown then handlerBodyRuns n true
      else 1 + handlerBodyRuns n true

/-! ## Helper lemmas about the JS `Set` model -/

theorem mem_addToSet {l : List String} {x y : String} :
    y ∈ addToSet l x ↔ y ∈ l ∨ y = x := by
  unfold addToSet
  split
  · rename_i hx
    constructor
    · exact Or.inl
    · rintro (h | rfl)
      · exact h
      · exact hx
  · simp

theorem mem_addAllToSet {xs : List String} :
    ∀ {l : List String} {y : String}, y ∈ addAllToSet l xs ↔ y ∈ l ∨ y ∈ xs := by
  induction xs with
  | nil => intro l y; simp [addAllToSet]
  | cons x xs ih =>
    intro l y
    have h1 : addAllToSet l (x :: xs) = addAllToSet (addToSet l x) xs := rfl
    rw [h1, ih, mem_addToSet]
    simp only [List.mem_cons]
    tauto

theorem addAllToSet_eq_append (xs : List String) :
    ∀ l : List String, ∃ ys, addAllToSet l xs = l ++ ys ∧ ∀ y ∈ ys, y ∉ l := by
  induction xs with
  | nil => exact fun l => ⟨[], by simp [addAllToSet], by simp⟩
  | cons x xs ih =>
    intro l
    have h1 : addAllToSet l (x :: xs) = addAllToSet (addToSet l x) xs := rfl
    obtain ⟨ys, hys, hnot⟩ := ih (addToSet l x)
    by_cases hx : x ∈ l
    · have heq : addToSet l x = l := by simp [addToSet, hx]
      exact ⟨ys, by rw [h1, hys, heq], fun y hy => heq ▸ hnot y hy⟩
    · have heq : addToSet l x = l ++ [x] := by simp [addToSet, hx]
      refine ⟨x :: ys, ?_, ?_⟩
      · rw [h1, hys, heq, List.append_assoc]
        rfl
      · intro y hy
        rcases List.mem_cons.mp hy with rfl | hy2
        · exact hx
        · intro hyl
          exact hnot y hy2 (heq ▸ List.mem_append_left _ hyl)

/-! ## Helper lemmas about one loop iteration -/

theorem stepCollect_noChangeCount (obs : ScrollObs) (st : LoopState)
    (np : List ProfileWithId) : (stepCollect obs st np).noChangeCount = st.noChangeCount := by
  unfold stepCollect
  dsimp only
  split
  · split <;> rfl
  · rfl

theorem stepCollect_csvFilename (obs : ScrollObs) (st : LoopState)
    (np : List ProfileWithId) : (stepCollect obs st np).csvFilename = st.csvFilename := by
  unfold stepCollect
  dsimp only
  split
  · split <;> rfl
  · rfl

/-- Everything `step` changes besides the convergence counter is what
`stepCollect` did on the delta set. -/
theorem step_def (obs : ScrollObs) (st : LoopState) :
    step obs st =
      { stepCollect obs st (newProfilesOf obs.cards st.lastProfileIndex st.processedProfileIds) with
        noChangeCount := stallStep st.noChangeCount obs.heightUnchanged
          (newProfilesOf obs.cards st.lastProfileIndex st.processedProfileIds).length } := rfl

/-- The two shapes one call of `stepCollect` can take: nothing survived (the
state is untouched) or a non-empty deduplicated batch was committed. -/
theorem stepCollect_cases (obs : ScrollObs) (st : LoopState) (np : List ProfileWithId) :
    stepCollect obs st np = st ∨
    ∃ ub : List (Record × String),
      ub = uniqueBatchOf st.processedProfileIds (taggedBatch obs.extract np) ∧
      0 < ub.length ∧
      stepCollect obs st np =
        { st with
          sink := if obs.appendOk then st.sink ++ ub.map (·.1) else st.sink
          appendedIds :=
            if obs.appendOk then st.appendedIds ++ ub.map (·.2) else st.appendedIds
          processedProfileIds := addAllToSet st.processedProfileIds (ub.map (·.2))
          lastProfileIndex :=
            (np.map (fun p => (p.index : Int))).foldl max st.lastProfileIndex
          savedCheckpoint := some (updateCheckpoint
            ((np.map (fun p => (p.index : Int))).foldl max st.lastProfileIndex)
            (some st.csvFilename)
            (addAllToSet st.processedProfileIds (ub.map (·.2)))) } := by
  unfold stepCollect
  dsimp only
  split
  · split
    · rename_i h
      exact Or.inr ⟨_, rfl, h, rfl⟩
    · exact Or.inl rfl
  · exact Or.inl rfl

/-- Every id the second dedupe pass lets through was not yet processed. -/
theorem uniqueBatch_snd_not_processed {processed : List String}
    {tagged : List (Record × String)} {x : String}
    (hx : x ∈ (uniqueBatchOf processed tagged).map (·.2)) : x ∉ processed := by
  obtain ⟨t, ht, rfl⟩ := List.mem_map.mp hx
  have h2 := (List.mem_filter.mp ht).2
  simp only [Bool.and_eq_true, Bool.not_eq_true'] at h2
  intro hmem
  have : processed.contains t.2 = true := List.elem_iff.mpr hmem
  rw [h2.2] at this
  exact Bool.false_ne_true this

theorem le_foldl_max (l : List Int) : ∀ a : Int, a ≤ l.foldl max a := by
  induction l with
  | nil => exact fun a => le_refl a
  | cons x xs ih => exact fun a => le_trans (le_max_left a x) (ih (max a x))

/-- One iteration only appends to the in-memory processed set, and everything
it appends was not processed before the iteration. -/
theorem step_processed_append (obs : ScrollObs) (st : LoopState) :
    ∃ newIds, (step obs st).processedProfileIds = st.processedProfileIds ++ newIds ∧
      ∀ x ∈ newIds, x ∉ st.processedProfileIds := by
  rw [step_def]
  rcases stepCollect_cases obs st
      (newProfilesOf obs.cards st.lastProfileIndex st.processedProfileIds) with h | ⟨ub, _, _, h⟩
  · exact ⟨[], by rw [h]; simp, by simp⟩
  · rw [h]
    exact addAllToSet_eq_append (ub.map (·.2)) st.processedProfileIds

/-- One iteration only appends to the list of fingerprints of rows appended
to the sink, and everything it appends was not processed before the
iteration. -/
theorem step_appendedIds_append (obs : ScrollObs) (st : LoopState) :
    ∃ newIds, (step obs st).appendedIds = st.appendedIds ++ newIds ∧
      ∀ x ∈ newIds, x ∉ st.processedProfileIds := by
  rw [step_def]
  rcases stepCollect_cases obs st
      (newProfilesOf obs.cards st.lastProfileIndex st.processedProfileIds) with h | ⟨ub, hub, _, h⟩
  · exact ⟨[], by rw [h]; simp, by simp⟩
  · rw [h]
    by_cases ha : obs.appendOk
    · refine ⟨ub.map (·.2), by simp [ha], ?_⟩
      intro x hx
      exact uniqueBatch_snd_not_processed (hub ▸ hx)
    · exact ⟨[], by simp [ha], by simp⟩

theorem step_lastIndex_mono (obs : ScrollObs) (st : LoopState) :
    st.lastProfileIndex ≤ (step obs st).lastProfileIndex := by
  rw [step_def]
  rcases stepCollect_cases obs st
      (newProfilesOf obs.cards st.lastProfileIndex st.processedProfileIds) with h | ⟨ub, _, _, h⟩
  · rw [h]
  · rw [h]
    exact le_foldl_max _ st.lastProfileIndex

theorem step_lastIndex_cases (obs : ScrollObs) (st : LoopState) :
    (step obs st).lastProfileIndex = st.lastProfileIndex ∨
    (step obs st).lastProfileIndex =
      ((newProfilesOf obs.cards st.lastProfileIndex st.processedProfileIds).map
        (fun p => (p.index : Int))).foldl max st.lastProfileIndex := by
  rw [step_def]
  rcases stepCollect_cases obs st
      (newProfilesOf obs.cards st.lastProfileIndex st.processedProfileIds) with h | ⟨ub, _, _, h⟩
  · rw [h]; exact Or.inl rfl
  · rw [h]; exact Or.inr rfl

/-- Either no checkpoint is written this iteration, or the written document
is built by `updateCheckpoint` from the updated in-memory values. -/
theorem step_savedCheckpoint_cases (obs : ScrollObs) (st : LoopState) :
    (step obs st).savedCheckpoint = st.savedCheckpoint ∨
    (step obs st).savedCheckpoint =
      some (updateCheckpoint (step obs st).lastProfileIndex (some st.csvFilename)
        (step obs st).processedProfileIds) := by
  rw [step_def]
  rcases stepCollect_cases obs st
      (newProfilesOf obs.cards st.lastProfileIndex st.processedProfileIds) with h | ⟨ub, _, _, h⟩
  · rw [h]; exact Or.inl rfl
  · rw [h]; exact Or.inr rfl

theorem runLoop_lastIndex_mono (obsList : List ScrollObs) :
    ∀ st : LoopState, st.lastProfileIndex ≤ (runLoop obsList st).lastProfileIndex := by
  induction obsList with
  | nil => exact fun st => le_refl _
  | cons obs rest ih =>
    intro st
    unfold runLoop
    split
    · exact le_trans (step_lastIndex_mono obs st) (ih (step obs st))
    · exact le_refl _

theorem runLoop_processed_append (obsList : List ScrollObs) :
    ∀ st : LoopState, ∃ newIds,
      (runLoop obsList st).processedProfileIds = st.processedProfileIds ++ newIds := by
  induction obsList with
  | nil => exact fun st => ⟨[], by simp [runLoop]⟩
  | cons obs rest ih =>
    intro st
    unfold runLoop
    split
    · obtain ⟨a, ha, _⟩ := step_processed_append obs st
      obtain ⟨b, hb⟩ := ih (step obs st)
      exact ⟨a ++ b, by rw [hb, ha, List.append_assoc]⟩
    · exact ⟨[], by simp⟩

/-- The run-level no-reappend invariant: a fingerprint that is in the
in-memory processed set and not among the appended fingerprints stays that
way through the whole loop. -/
theorem runLoop_no_reappend (fp : String) (obsList : List ScrollObs) :
    ∀ st : LoopState, fp ∈ st.processedProfileIds → fp ∉ st.appendedIds →
      fp ∉ (runLoop obsList st).appendedIds := by
  induction obsList with
  | nil => exact fun st _ h2 => h2
  | cons obs rest ih =>
    intro st h1 h2
    unfold runLoop
    split
    · refine ih (step obs st) ?_ ?_
      · obtain ⟨ys, hy, _⟩ := step_processed_append obs st
        rw [hy]
        exact List.mem_append_left _ h1
      · obtain ⟨ys, hy, hnot⟩ := step_appendedIds_append obs st
        rw [hy]
        intro hc
        rcases List.mem_append.mp hc with h | h
        · exact h2 h
        · exact hnot fp h h1
    · exact h2

/-- Final counter value `k` means the trace ends in exactly `k` consecutive
stall iterations. -/
theorem runDetector_eq_suffix (trace : List (Bool × Nat)) :
    ∀ k : Nat, runDetector trace = k →
      ∃ pre suf, trace = pre ++ suf ∧ suf.length = k ∧ suf.all obsStall = true := by
  induction trace using List.reverseRecOn with
  | nil =>
    intro k hk
    have h0 : k = 0 := by simpa [runDetector] using hk.symm
    subst h0
    exact ⟨[], [], by simp, rfl, rfl⟩
  | append_singleton l a ih =>
    intro k hk
    have hfold : runDetector (l ++ [a]) = stallStep (runDetector l) a.1 a.2 := by
      simp [runDetector, List.foldl_append]
    rw [hfold] at hk
    by_cases hs : obsStall a = true
    · have hcond : (a.1 && (a.2 == 0)) = true := hs
      rw [stallStep, if_pos hcond] at hk
      obtain ⟨pre, suf, hl, hlen, hall⟩ := ih (runDetector l) rfl
      refine ⟨pre, suf ++ [a], ?_, ?_, ?_⟩
      · rw [hl, List.append_assoc]
      · simp [hlen, ← hk]
      · simp only [List.all_append, hall, Bool.true_and, List.all_cons, List.all_nil]
        simp [hs]
    · have hcond : (a.1 && (a.2 == 0)) = false := by
        simpa [obsStall] using hs
      rw [stallStep, if_neg (by simp [hcond])] at hk
      subst hk
      exact ⟨l ++ [a], [], by simp, rfl, rfl⟩

theorem handlerBodyRuns_true (n : Nat) : handlerBodyRuns n true = 0 := by
  induction n with
  | zero => rfl
  | succ n ih => simpa [handlerBodyRuns] using ih

/-- The fingerprint's characters: the three whitespace-stripped fields joined
by literal pipe characters. -/
theorem computeUniqueId_data (n o l : Option String) :
    (computeUniqueId n o l).data =
      (n.getD "").data.filter (fun c => !c.isWhitespace) ++
        ('|' :: ((o.getD "").data.filter (fun c => !c.isWhitespace) ++
          '|' :: (l.getD "").data.filter (fun c => !c.isWhitespace))) := by
  unfold computeUniqueId removeWhitespace
  show List.filter _ (((n.getD "" ++ "|") ++ o.getD "" ++ "|") ++ l.getD "").data = _
  simp [String.data_append, List.filter_append]

/-- With the other two fields fixed, two names give the same fingerprint
exactly when they agree after whitespace removal. -/
theorem computeUniqueId_name_inj (o l : Option String) (n₁ n₂ : String) :
    computeUniqueId (some n₁) o l = computeUniqueId (some n₂) o l ↔
      removeWhitespace n₁ = removeWhitespace n₂ := by
  constructor
  · intro h
    have hd := congrArg String.data h
    rw [computeUniqueId_data, computeUniqueId_data] at hd
    have h2 := List.append_cancel_right hd
    unfold removeWhitespace
    exact congrArg String.mk h2
  · intro h
    have h2 : n₁.data.filter (fun c => !c.isWhitespace) =
        n₂.data.filter (fun c => !c.isWhitespace) := by
      unfold removeWhitespace at h
      injection h
    refine String.ext ?_
    rw [computeUniqueId_data, computeUniqueId_data]
    simp [h2]

/-- With the other two fields fixed, two occupations give the same
fingerprint exactly when they agree after whitespace removal. -/
theorem computeUniqueId_occupation_inj (n l : Option String) (o₁ o₂ : String) :
    computeUniqueId n (some o₁) l = computeUniqueId n (some o₂) l ↔
      removeWhitespace o₁ = removeWhitespace o₂ := by
  constructor
  · intro h
    have hd := congrArg String.data h
    rw [computeUniqueId_data, computeUniqueId_data] at hd
    have h2 := List.append_cancel_left hd
    simp only [List.cons.injEq, true_and] at h2
    have h3 := List.append_cancel_right h2
    unfold removeWhitespace
    exact congrArg String.mk h3
  · intro h
    have h2 : o₁.data.filter (fun c => !c.isWhitespace) =
        o₂.data.filter (fun c => !c.isWhitespace) := by
      unfold removeWhitespace at h
      injection h
    refine String.ext ?_
    rw [computeUniqueId_data, computeUniqueId_data]
    simp [h2]

/-- With the other two fields fixed, two profile links give the same
fingerprint exactly when they agree after whitespace removal. -/
theorem computeUniqueId_linkedIn_inj (n o : Option String) (l₁ l₂ : String) :
    computeUniqueId n o (some l₁) = computeUniqueId n o (some l₂) ↔
      removeWhitespace l₁ = removeWhitespace l₂ := by
  constructor
  · intro h
    have hd := congrArg String.data h
    rw [computeUniqueId_data, computeUniqueId_data] at hd
    have h2 := List.append_cancel_left hd
    simp only [List.cons.injEq, true_and] at h2
    have h3 := List.append_cancel_left h2
    simp only [List.cons.injEq, true_and] at h3
    unfold removeWhitespace
    exact congrArg String.mk h3
  · intro h
    have h2 : l₁.data.filter (fun c => !c.isWhitespace) =
        l₂.data.filter (fun c => !c.isWhitespace) := by
      unfold removeWhitespace at h
      injection h
    refine String.ext ?_
    rw [computeUniqueId_data, computeUniqueId_data]
    simp [h2]

/-! ## Concrete scenarios -/

/-- A concrete extracted record. -/
def recAlice : Record := ⟨some "Alice", none, none, some "CEO", none, none⟩

/-- A concrete visible card; its probe fingerprint is `"Alice|CEO|x"`. -/
def cardAlice : RawCard := ⟨some "Alice", some "CEO", some "x"⟩

/-- A fresh run's loop state: no checkpoint existed, the CSV `out.csv` was
just created. -/
def stStart : LoopState := ⟨-1, [], 0, "out.csv", [], [], none⟩

/-- An iteration that sees one new card, extracts it fine, but whose CSV
append fails. -/
def obsAppendFails : ScrollObs := ⟨[cardAlice], fun _ => .ok recAlice, false, false⟩

/-- The same iteration with the CSV append succeeding. -/
def obsAppendSucceeds : ScrollObs := ⟨[cardAlice], fun _ => .ok recAlice, true, false⟩

/-- A checkpoint carrying one already-processed fingerprint. -/
def witnessCp : Checkpoint := ⟨-1, none, ["seen||"]⟩

/-- One iteration of a resumed run whose page shows both the already-seen
card (fingerprint `"seen||"`) and a fresh one. -/
def witnessObsList : List ScrollObs :=
  [⟨[⟨some "seen", none, none⟩, ⟨some "fresh", none, none⟩], fun _ => .ok recAlice, true, false⟩]

/-! ## The claims -/

/-- C1: commit atomicity fails in the code. `appendToCsv` catches the append
error internally (src/index.js:176-178), so when the Sink append fails the
loop still adds the batch's fingerprints to `processedProfileIds` and saves
them in the checkpoint (src/index.js:271-283): here the sink stays empty and
nothing was appended, yet the fingerprint `"Alice|CEO|x"` is marked processed
and persisted.  Spec section 9 itself flags this (the atomicity requirement
is "the corrected intended behavior, not the literal source behavior"). -/
theorem commit_atomicity_violated_eval :
    (step obsAppendFails stStart).sink = [] ∧
    (step obsAppendFails stStart).appendedIds = [] ∧
    "Alice|CEO|x" ∈ (step obsAppendFails stStart).processedProfileIds ∧
    (step obsAppendFails stStart).savedCheckpoint =
      some ⟨0, some "out.csv", ["Alice|CEO|x"]⟩ := by
  decide

/-- C2 counterexample: the claim's delta criterion is a disjunction, but the
code's filter (src/index.js:243-246) is a conjunction.  A visible item at
index 0 whose fingerprint is absent from the processed set satisfies the
claimed OR-criterion against `lastIndex = 5`, yet it is not selected. -/
theorem delta_or_disjunct_refuted :
    (⟨0, "Alice||"⟩ : ProfileWithId) ∈
        currentProfilesWithIds [⟨some "Alice", none, none⟩] ∧
    (((0 : Nat) : Int) > 5 ∨ "Alice||" ∉ (["x"] : List String)) ∧
    (⟨0, "Alice||"⟩ : ProfileWithId) ∉
        newProfilesOf [⟨some "Alice", none, none⟩] 5 ["x"] := by
  decide

/-- C2 (amended): the delta set consists of exactly those currently visible
items whose index is greater than `lastIndex` AND whose fingerprint is absent
from `processedProfileIds`. -/
theorem delta_membership_conjunction :
    ∀ (cards : List RawCard) (lastProfileIndex : Int) (processedProfileIds : List String)
      (p : ProfileWithId),
      p ∈ newProfilesOf cards lastProfileIndex processedProfileIds ↔
        p ∈ currentProfilesWithIds cards ∧ (p.index : Int) > lastProfileIndex ∧
          p.uniqueId ∉ processedProfileIds := by
  intro cards lastProfileIndex processedProfileIds p
  simp [newProfilesOf, List.mem_filter, List.elem_iff, and_assoc]

/-- C4: the loop's counter update is exactly `stallStep`; a final counter of
`maxNoChangeCount = 5` (the loop's exit condition) forces the trace to end in
exactly 5 consecutive iterations with unchanged height and zero new items;
any iteration that is not such a stall resets the counter to 0; 5 stalls do
reach 5; and 4 stalls followed by an iteration with a new item leave the
counter at 0, so the loop does not terminate there. -/
theorem convergence_five_consecutive_stalls :
    (∀ (obs : ScrollObs) (st : LoopState),
        (step obs st).noChangeCount =
          stallStep st.noChangeCount obs.heightUnchanged
            (newProfilesOf obs.cards st.lastProfileIndex st.processedProfileIds).length) ∧
    (∀ trace : List (Bool × Nat), runDetector trace = maxNoChangeCount →
        ∃ pre suf, trace = pre ++ suf ∧ suf.length = 5 ∧ suf.all obsStall = true) ∧
    (∀ (c : Nat) (h : Bool) (n : Nat), obsStall (h, n) = false → stallStep c h n = 0) ∧
    runDetector (List.replicate 5 (true, 0)) = 5 ∧
    runDetector (List.replicate 4 (true, 0) ++ [(true, 1)]) = 0 := by
  refine ⟨fun obs st => rfl, ?_, ?_, by decide, by decide⟩
  · intro trace h
    exact runDetector_eq_suffix trace 5 h
  · intro c h n hf
    unfold stallStep
    rw [if_neg]
    simp only [obsStall] at hf
    simp [hf]

/-- C6: the extraction batch processor returns exactly one record per
requested index, in order; an index whose extraction finds no element or
throws yields the placeholder record, whose name is `Error_Profile_<index>`
and whose every other field is null; a successful extraction yields its
data.  No failure aborts the batch: the result is total. -/
theorem extract_batch_one_record_per_index :
    (∀ (extract : Nat → ExtractOutcome) (profileIndices : List Nat),
        (extractProfileBatch extract profileIndices).length = profileIndices.length) ∧
    (∀ (extract : Nat → ExtractOutcome) (profileIndices : List Nat) (i : Nat),
        (extractProfileBatch extract profileIndices)[i]? =
          (profileIndices[i]?).map (extractEntry extract)) ∧
    (∀ (extract : Nat → ExtractOutcome) (index : Nat),
        extract index = ExtractOutcome.missing ∨ extract index = ExtractOutcome.threw →
          extractEntry extract index = placeholderRecord index) ∧
    (∀ (extract : Nat → ExtractOutcome) (index : Nat) (data : Record),
        extract index = ExtractOutcome.ok data → extractEntry extract index = data) ∧
    (∀ index : Nat,
        (placeholderRecord index).name = some ("Error_Profile_" ++ toString index) ∧
        (placeholderRecord index).linkedIn_url = none ∧
        (placeholderRecord index).website_url = none ∧
        (placeholderRecord index).occupation = none ∧
        (placeholderRecord index).location = none ∧
        (placeholderRecord index).uni_name = none) := by
  refine ⟨?_, ?_, ?_, ?_, fun index => ⟨rfl, rfl, rfl, rfl, rfl, rfl⟩⟩
  · intro extract profileIndices
    simp [extractProfileBatch]
  · intro extract profileIndices i
    simp [extractProfileBatch, List.getElem?_map]
  · intro extract index h
    rcases h with h | h <;> simp [extractEntry, h]
  · intro extract index data h
    simp [extractEntry, h]

/-- C7: the fingerprint is a pure function of the `(name, occupation,
linkedinUrl)` triple (equal fields give equal fingerprints); a missing field
contributes the same empty segment as an empty one; and, with the other
fields fixed, two values of a field give equal fingerprints exactly when
they agree after whitespace removal — whitespace removal is the only
normalization, so field values differing in case or punctuation (which
survive whitespace removal) yield different fingerprints, as the concrete
instances show. -/
theorem fingerprint_deterministic_whitespace_only :
    (∀ n₁ o₁ l₁ n₂ o₂ l₂ : Option String, n₁ = n₂ → o₁ = o₂ → l₁ = l₂ →
        computeUniqueId n₁ o₁ l₁ = computeUniqueId n₂ o₂ l₂) ∧
    (∀ o l, computeUniqueId none o l = computeUniqueId (some "") o l) ∧
    (∀ n l, computeUniqueId n none l = computeUniqueId n (some "") l) ∧
    (∀ n o, computeUniqueId n o none = computeUniqueId n o (some "")) ∧
    (∀ (o l : Option String) (n₁ n₂ : String),
        computeUniqueId (some n₁) o l = computeUniqueId (some n₂) o l ↔
          removeWhitespace n₁ = removeWhitespace n₂) ∧
    (∀ (n l : Option String) (o₁ o₂ : String),
        computeUniqueId n (some o₁) l = computeUniqueId n (some o₂) l ↔
          removeWhitespace o₁ = removeWhitespace o₂) ∧
    (∀ (n o : Option String) (l₁ l₂ : String),
        computeUniqueId n o (some l₁) = computeUniqueId n o (some l₂) ↔
          removeWhitespace l₁ = removeWhitespace l₂) ∧
    computeUniqueId (some "John Smith") (some "CEO") none =
      computeUniqueId (some "JohnSmith") (some "CEO") none ∧
    computeUniqueId (some "Alice") none none ≠ computeUniqueId (some "alice") none none ∧
    computeUniqueId (some "A.B") none none ≠ computeUniqueId (some "AB") none none := by
  refine ⟨?_, fun o l => rfl, fun n l => rfl, fun n o => rfl,
    computeUniqueId_name_inj, computeUniqueId_occupation_inj, computeUniqueId_linkedIn_inj,
    by decide, by decide, by decide⟩
  intro n₁ o₁ l₁ n₂ o₂ l₂ h1 h2 h3
  rw [h1, h2, h3]

/-- C8: the guard does make the handler body run at most once under repeated
signals, but the handler does NOT save the moment-of-signal checkpoint: it
was registered before the loop (src/index.js:38) with `lastProfileIndex` and
`csvFilename` captured by value, so after one committed batch the loop's
in-memory index is 0 and its CSV is `out.csv`, while the handler saves the
registration-time values -1 and null — only the fingerprint set (shared by
reference) is current. -/
theorem shutdown_stale_capture_eval :
    (∀ (n : Nat) (b : Bool), handlerBodyRuns n b ≤ 1) ∧
    handlerBodyRuns 3 false = 1 ∧
    (step obsAppendSucceeds stStart).lastProfileIndex = 0 ∧
    (step obsAppendSucceeds stStart).csvFilename = "out.csv" ∧
    setupGracefulShutdownSave stStart.lastProfileIndex none
        (step obsAppendSucceeds stStart).processedProfileIds =
      ⟨-1, none, ["Alice|CEO|x"]⟩ := by
  refine ⟨?_, by decide, by decide, by decide, by decide⟩
  intro n b
  match n, b with
  | 0, _ => exact Nat.zero_le 1
  | n + 1, true => simp [handlerBodyRuns, handlerBodyRuns_true]
  | n + 1, false => simp [handlerBodyRuns, handlerBodyRuns_true]

/-- C9: `lastProfileIndex` never decreases within a run — each iteration
either leaves it alone or sets it to the `max`-fold of its previous value
with the delta batch's indices (src/index.js:280), and over any sequence of
iterations the final value is at least the starting one. -/
theorem lastProfileIndex_monotone :
    (∀ (obs : ScrollObs) (st : LoopState),
        st.lastProfileIndex ≤ (step obs st).lastProfileIndex) ∧
    (∀ (obs : ScrollObs) (st : LoopState),
        (step obs st).lastProfileIndex = st.lastProfileIndex ∨
        (step obs st).lastProfileIndex =
          ((newProfilesOf obs.cards st.lastProfileIndex st.processedProfileIds).map
            (fun p => (p.index : Int))).foldl max st.lastProfileIndex) ∧
    (∀ (obsList : List ScrollObs) (st : LoopState),
        st.lastProfileIndex ≤ (runLoop obsList st).lastProfileIndex) :=
  ⟨step_lastIndex_mono, step_lastIndex_cases,
    fun obsList st => runLoop_lastIndex_mono obsList st⟩

/-- C10: within a run the in-memory processed set only grows (each iteration
appends, never removes), the checkpoint save stores `truncateIds` of a copy
while the in-memory list is kept whole, and over any sequence of iterations
the in-memory set extends its initial value. -/
theorem processed_set_grows_truncation_only_on_save :
    (∀ (obs : ScrollObs) (st : LoopState), ∃ newIds,
        (step obs st).processedProfileIds = st.processedProfileIds ++ newIds) ∧
    (∀ (obs : ScrollObs) (st : LoopState),
        (step obs st).savedCheckpoint = st.savedCheckpoint ∨
        (step obs st).savedCheckpoint =
          some (updateCheckpoint (step obs st).lastProfileIndex (some st.csvFilename)
            (step obs st).processedProfileIds)) ∧
    (∀ (lastIdx : Int) (csv : Option String) (ids : List String),
        (updateCheckpoint lastIdx csv ids).processedProfileIds = truncateIds ids) ∧
    (∀ (obsList : List ScrollObs) (st : LoopState), ∃ newIds,
        (runLoop obsList st).processedProfileIds = st.processedProfileIds ++ newIds) := by
  refine ⟨?_, step_savedCheckpoint_cases, fun _ _ _ => rfl,
    fun obsList st => runLoop_processed_append obsList st⟩
  intro obs st
  obtain ⟨ys, hy, _⟩ := step_processed_append obs st
  exact ⟨ys, hy⟩

/-- C3: resume correctness — a run that starts from a checkpoint never
appends to the sink a record whose fingerprint is in the checkpoint's
fingerprint set, whatever the page shows: both dedupe passes filter against
the in-memory processed set, which starts as a superset of F and only
grows. -/
theorem resume_correctness (cp : Checkpoint) (csvFilename : String)
    (obsList : List ScrollObs) (fp : String) (hfp : fp ∈ cp.processedProfileIds) :
    fp ∉ (runLoop obsList (initState cp csvFilename)).appendedIds := by
  refine runLoop_no_reappend fp obsList (initState cp csvFilename) ?_ ?_
  · show fp ∈ addAllToSet [] cp.processedProfileIds
    exact mem_addAllToSet.mpr (Or.inr hfp)
  · show fp ∉ ([] : List String)
    simp

theorem resume_correctness_witness :
    "seen||" ∈ witnessCp.processedProfileIds ∧
    "seen||" ∉ (runLoop witnessObsList (initState witnessCp "out.csv")).appendedIds :=
  ⟨by decide, resume_correctness witnessCp "out.csv" witnessObsList "seen||" (by decide)⟩

/-- Whatever the insertion count, `truncateIds` keeps exactly the suffix
after the first `length - 1000` entries (when the list is short that is the
whole list, since `length - 1000 = 0`). -/
theorem truncateIds_eq_drop (ids : List String) :
    truncateIds ids = ids.drop (ids.length - 1000) := by
  unfold truncateIds
  split
  · rfl
  · rename_i h
    have h0 : ids.length - 1000 = 0 := by omega
    rw [h0, List.drop_zero]

theorem truncateIds_length_le (ids : List String) : (truncateIds ids).length ≤ 1000 := by
  rw [truncateIds_eq_drop, List.length_drop]
  omega

/-- C5: every checkpoint save persists at most 1000 fingerprints and retains
exactly the most recently inserted ones — the written list is the suffix of
the insertion-ordered list past its first `length - 1000` entries, whatever
the insertion count.  In particular, after 1200 distinct fingerprints have
been inserted in order, the persisted list is the last 1000 of them: length
exactly 1000, the 200 earliest-inserted fingerprints excluded and every
later one retained. -/
theorem eviction_bound :
    (∀ (lastIdx : Int) (csv : Option String) (ids : List String),
        ((updateCheckpoint lastIdx csv ids).processedProfileIds).length ≤ 1000) ∧
    (∀ (lastIdx : Int) (csv : Option String) (ids : List String),
        (updateCheckpoint lastIdx csv ids).processedProfileIds =
          ids.drop (ids.length - 1000)) ∧
    (∀ ids : List String, ids.Nodup → ids.length = 1200 →
        truncateIds ids = ids.drop 200 ∧
        (truncateIds ids).length = 1000 ∧
        (∀ (i : Nat) (x : String), i < 200 → ids[i]? = some x → x ∉ truncateIds ids) ∧
        (∀ (i : Nat) (x : String), 200 ≤ i → ids[i]? = some x → x ∈ truncateIds ids)) := by
  refine ⟨fun _ _ ids => truncateIds_length_le ids,
    fun _ _ ids => truncateIds_eq_drop ids, ?_⟩
  intro ids hnd hlen
  have htr : truncateIds ids = ids.drop 200 := by
    rw [truncateIds_eq_drop, hlen]
  refine ⟨htr, ?_, ?_, ?_⟩
  · rw [htr, List.length_drop, hlen]
  · intro i x hi hx
    have hnodup2 : (ids.take 200 ++ ids.drop 200).Nodup := by
      rw [List.take_append_drop]
      exact hnd
    have hdisj := (List.nodup_append.mp hnodup2).2.2
    have hxtake : x ∈ ids.take 200 := by
      have hq : (ids.take 200)[i]? = some x := by
        rw [List.getElem?_take, if_pos hi]
        exact hx
      rw [List.getElem?_eq_some] at hq
      obtain ⟨hlt, rfl⟩ := hq
      exact List.getElem_mem hlt
    rw [htr]
    exact fun hc => hdisj hxtake hc
  · intro i x h200 hx
    rw [htr]
    have hq : (ids.drop 200)[i - 200]? = some x := by
      rw [List.getElem?_drop]
      have h : 200 + (i - 200) = i := by omega
      rw [h]
      exact hx
    rw [List.getElem?_eq_some] at hq
    obtain ⟨hlt, rfl⟩ := hq
    exact List.getElem_mem hlt

/-- 1200 pairwise distinct fingerprints, inserted in order. -/
def witnessIds : List String := (List.range 1200).map (fun n => String.mk (List.replicate n 'a'))

theorem witnessIds_length : witnessIds.length = 1200 := by
  simp [witnessIds]

theorem witnessIds_nodup : witnessIds.Nodup := by
  refine List.Nodup.map ?_ (List.nodup_range 1200)
  intro a b h
  have h2 : List.replicate a 'a' = List.replicate b 'a' := by injection h
  have h3 := congrArg List.length h2
  simpa using h3

theorem eviction_bound_witness :
    truncateIds witnessIds = witnessIds.drop 200 ∧ (truncateIds witnessIds).length = 1000 :=
  ⟨(eviction_bound.2.2 witnessIds witnessIds_nodup witnessIds_length).1,
    (eviction_bound.2.2 witnessIds witnessIds_nodup witnessIds_length).2.1⟩

end Scraper
